import Mathlib

/-!
Verification of `mcp_server.py` (Microsoft Events MCP server).

This file gives a shallow embedding of the server's data model and
operations and proves the spec's claims about them.

Modelling conventions:
* Python's dynamically-typed JSON values are modelled by the inductive
  `JVal`.  Arrays and objects are cons-encoded (rather than nested
  `List`s) so that decidable equality is structural and evaluates.
* JSON numbers are modelled as integers (the upstream API only produces
  integer counts); Python booleans occurring where the code does integer
  arithmetic are folded into their integer value where noted.
* Python runtime exceptions (`AttributeError` from attribute access on a
  non-dict, `TypeError` from ordering or iterating unsupported values,
  transport errors from `urllib`) are modelled with `Except String`.
  Iterating or extending with a non-list value is modelled as a
  `TypeError` (Python would accept some other iterables; none occur in
  the API's data).
* The HTTP layer is an oracle: for `fetch_page` a map from attempt
  number to outcome, for the callers of `fetch_page` a deterministic map
  from request to outcome.
-/

/-- Dynamic JSON-like value, as handled by the Python code.  Arrays and
objects are cons-encoded: `arrCons`/`objCons` chains ending in
`arrNil`/`objNil`.  Malformed chains cannot arise from JSON input; the
accessors treat a malformed tail as the end of the collection. -/
inductive JVal where
  | null
  | bool (b : Bool)
  | num (n : Int)
  | str (s : String)
  | arrNil
  | arrCons (hd tl : JVal)
  | objNil
  | objCons (key : String) (val tl : JVal)
deriving DecidableEq, Repr

/-- Build an object value from a list of fields. -/
def JVal.mkObj : List (String × JVal) → JVal
  | [] => .objNil
  | (k, v) :: t => .objCons k v (JVal.mkObj t)

/-- Build an array value from a list of elements. -/
def JVal.mkArr : List JVal → JVal
  | [] => .arrNil
  | v :: t => .arrCons v (JVal.mkArr t)

/-- First value stored under `key` in an object chain. -/
def objLookup : JVal → String → Option JVal
  | .objCons k v t, key => if k = key then some v else objLookup t key
  | _, _ => none

/-- Is the value a Python dict? -/
def JVal.isDict : JVal → Bool
  | .objNil => true
  | .objCons _ _ _ => true
  | _ => false

/-- Is the value a string? -/
def JVal.isStr : JVal → Bool
  | .str _ => true
  | _ => false

/-- Is the value an (integer) number? -/
def JVal.isNum : JVal → Bool
  | .num _ => true
  | _ => false

/-- Python truthiness of a JSON value (`if v:`). -/
def JVal.truthy : JVal → Bool
  | .null => false
  | .bool b => b
  | .num n => n != 0
  | .str s => s != ""
  | .arrNil => false
  | .arrCons _ _ => true
  | .objNil => false
  | .objCons _ _ _ => true

/-- Python `v.get(key, dflt)`: returns the stored value (even if null)
when the key is present, the default when absent, and raises
`AttributeError` when `v` is not a dict. -/
def JVal.getD (v : JVal) (key : String) (dflt : JVal) : Except String JVal :=
  if v.isDict then .ok ((objLookup v key).getD dflt) else .error "AttributeError"

/-- Elements of an array value; `none` when the value is not a list
(Python would raise when the code iterates or extends with it). -/
def arrItems : JVal → Option (List JVal)
  | .arrNil => some []
  | .arrCons h t => (arrItems t).map (h :: ·)
  | _ => none

/-- Python `x or {}` as used on nested sub-objects. -/
def orEmptyDict (v : JVal) : JVal :=
  if v.truthy then v else .objNil

/-- `PAGE_SIZE = 100` from the source. -/
def PAGE_SIZE : Nat := 100

/-- `MAX_RETRIES = 3` from the source. -/
def MAX_RETRIES : Nat := 3

/-- `RETRY_BACKOFF = 2` from the source (seconds, doubles each retry). -/
def RETRY_BACKOFF : Nat := 2

/-- `DEFAULT_LOCALE = "de-de"` from the source. -/
def DEFAULT_LOCALE : String := "de-de"

/-! ## `fetch_page`: bounded retry with doubling backoff

The transport layer is an oracle `outcomes : Nat → Except String JVal`
giving, for each attempt number, either the parsed JSON body of a
successful exchange or the transport error of a failed one.  The model
returns the list of sleep durations performed (the arguments of
`time.sleep`) together with the overall outcome. -/

/-- The retry loop of `fetch_page`: `attempt` is the current attempt
index, `fuel` the number of attempts left (`MAX_RETRIES - attempt`),
`sleeps` the backoff sleeps performed so far and `last` the last
transport error seen. -/
def retryGo (outcomes : Nat → Except String JVal) :
    Nat → Nat → List Nat → Option String → List Nat × Except String JVal
  | _, 0, sleeps, last =>
      -- `raise last_error`; `last = none` would be Python raising `None`,
      -- impossible since `MAX_RETRIES > 0`.
      (sleeps, .error (last.getD "TypeError"))
  | attempt, fuel + 1, sleeps, _ =>
      match outcomes attempt with
      | .ok v => (sleeps, .ok v)
      | .error e =>
          if attempt < MAX_RETRIES - 1 then
            retryGo outcomes (attempt + 1) fuel
              (sleeps ++ [RETRY_BACKOFF * 2 ^ attempt]) (some e)
          else
            retryGo outcomes (attempt + 1) fuel sleeps (some e)

/-- `fetch_page`, abstracted over the per-attempt transport outcomes:
the sleeps performed and the result (parsed body or last error). -/
def fetch_page_run (outcomes : Nat → Except String JVal) :
    List Nat × Except String JVal :=
  retryGo outcomes 0 MAX_RETRIES [] none

/-! ## `parse_card`: record projection -/

/-- The flat structure produced by `parse_card`.  Field values are kept
as raw JSON values: Python's `dict.get(key, default)` substitutes the
default only when the key is absent, so an explicitly null leaf is
passed through as null. -/
structure Parsed where
  id : JVal
  name : JVal
  title : JVal
  description : JVal
  format : JVal
  format_english : JVal
  link : JVal
  city : JVal
  state : JVal
  country : JVal
  start_date : JVal
  end_date : JVal
  filter_ids : JVal
deriving DecidableEq, Repr

/-- `parse_card` from the source: `content` is read with default `{}`
but — unlike `location`, `eventDates` and `action` — is not guarded by
`or {}`, so a null (or other non-dict truthy) `content` value raises. -/
def parse_card (card : JVal) : Except String Parsed := do
  let content ← card.getD "content" .objNil
  let location := orEmptyDict (← content.getD "location" .objNil)
  let dates := orEmptyDict (← content.getD "eventDates" .objNil)
  let action := orEmptyDict (← content.getD "action" .objNil)
  let pid ← content.getD "id" (.str "")
  let pname ← content.getD "name" (.str "")
  let ptitle ← content.getD "title" (.str "")
  let pdescription ← content.getD "description" (.str "")
  let pformat ← content.getD "format" (.str "")
  let pformatEnglish ← content.getD "formatEnglishName" (.str "")
  let plink ← action.getD "href" (.str "")
  let pcity ← location.getD "city" (.str "")
  let pstate ← location.getD "state" (.str "")
  let pcountry ← location.getD "country" (.str "")
  let pstart ← dates.getD "startDate" (.str "")
  let pend ← dates.getD "endDate" (.str "")
  let pfilterIds ← content.getD "filterIds" .arrNil
  pure ⟨pid, pname, ptitle, pdescription, pformat, pformatEnglish, plink,
        pcity, pstate, pcountry, pstart, pend, pfilterIds⟩

example :
    parse_card (JVal.mkObj [("content", JVal.mkObj [("location", .null)])]) =
      .ok ⟨.str "", .str "", .str "", .str "", .str "", .str "", .str "",
           .str "", .str "", .str "", .str "", .str "", .arrNil⟩ := rfl

example : parse_card (JVal.mkObj [("content", .null)]) = .error "AttributeError" := rfl

/-! ## The in-memory card index `_seen_cards`

The process-wide dict `_seen_cards : (locale, event_id) -> card` is
modelled as an association list threaded through the operations.  Keys
keep Python's shape `(str, value-of-content·id)`; insertion follows dict
semantics: overwrite in place when the key is present, append otherwise. -/

/-- One cache state of `_seen_cards`. -/
abbrev Cache := List ((String × JVal) × JVal)

/-- Dict lookup on the cache. -/
def cacheFind : Cache → String × JVal → Option JVal
  | [], _ => none
  | (k, v) :: rest, key => if k = key then some v else cacheFind rest key

/-- Dict assignment `_seen_cards[key] = card`: replaces the entry in
place when the key is present, appends a new entry otherwise. -/
def cacheInsert (c : Cache) (key : String × JVal) (card : JVal) : Cache :=
  if (cacheFind c key).isSome then
    c.map (fun p => if p.1 = key then (key, card) else p)
  else
    c ++ [(key, card)]

/-- Number of entries stored under `key`. -/
def countKey (c : Cache) (key : String × JVal) : Nat :=
  c.countP (fun p => p.1 = key)

/-- `card.get("content", {}).get("id", "")` as evaluated by
`_index_cards` (raises when `card` or a present `content` value is not
a dict). -/
def extractId (card : JVal) : Except String JVal := do
  let content ← card.getD "content" .objNil
  content.getD "id" (.str "")

/-- `_index_cards`: add each card with a truthy id to the index.  The
returned state is the cache reached when the call finishes or raises
(a raise leaves the cards already processed in the shared dict). -/
def _index_cards (locale : String) (cards : List JVal) (cache : Cache) :
    Cache × Option String :=
  match cards with
  | [] => (cache, none)
  | card :: rest =>
      match extractId card with
      | .error e => (cache, some e)
      | .ok eid =>
          let cache2 := if eid.truthy then cacheInsert cache (locale, eid) card else cache
          _index_cards locale rest cache2

/-! ## `fetch_all_cards`: the pagination driver

`fetch_page` is abstracted as a deterministic oracle from the request
payload fields to the outcome of the (internally retried) call. -/

/-- The payload fields of one `fetch_page` call. -/
structure Request where
  locale : String
  filters : String
  top : Nat
  skip : Nat
  query : String
deriving DecidableEq, Repr

/-- Transport oracle: outcome of `fetch_page` for a given request. -/
abbrev Api := Request → Except String JVal

/-- The zero-size metadata probe request. -/
def probeReq (locale filters query : String) : Request :=
  ⟨locale, filters, 0, 0, query⟩

/-- A data page request at offset `skip`. -/
def dataReq (locale filters query : String) (skip : Nat) : Request :=
  ⟨locale, filters, PAGE_SIZE, skip, query⟩

/-- `meta.get("totalCount", 0)` followed by the uses the driver makes of
it (`== 0`, `min`): absent means `0`; a bool is its integer value; any
other non-integer value makes `min(total, ...)` raise `TypeError`. -/
def totalCountOf (meta : JVal) : Except String Int :=
  match meta.getD "totalCount" (.num 0) with
  | .error e => .error e
  | .ok (.num n) => .ok n
  | .ok (.bool b) => .ok (if b then 1 else 0)
  | .ok _ => .error "TypeError"

/-- `data.get("cards", [])` followed by iteration: absent means the
empty list; a non-list value is modelled as a `TypeError`. -/
def cardsOf (data : JVal) : Except String (List JVal) :=
  match data.getD "cards" .arrNil with
  | .error e => .error e
  | .ok v =>
      match arrItems v with
      | some xs => .ok xs
      | none => .error "TypeError"

/-- The offsets generated by
`range(0, min(total, max_pages * PAGE_SIZE), PAGE_SIZE)`. -/
def pageSkips (total : Int) (max_pages : Nat) : List Nat :=
  let bound : Int := min total (max_pages * PAGE_SIZE)
  if bound ≤ 0 then []
  else (List.range ((bound - 1).toNat / PAGE_SIZE + 1)).map (· * PAGE_SIZE)

/-- The page loop of `fetch_all_cards`: issues the data page requests in
order, accumulating cards and feeding the index.  Returns the requests
issued, the accumulated cards, the final cache and the error that
escaped, if any. -/
def sweepLoop (locale filters query : String) (api : Api) :
    List Nat → List JVal → Cache → List Request × List JVal × Cache × Option String
  | [], acc, cache => ([], acc, cache, none)
  | skip :: rest, acc, cache =>
      let req := dataReq locale filters query skip
      match api req with
      | .error e => ([req], acc, cache, some e)
      | .ok data =>
          match cardsOf data with
          | .error e => ([req], acc, cache, some e)
          | .ok cards =>
              let (cache2, err) := _index_cards locale cards cache
              match err with
              | some e => ([req], acc ++ cards, cache2, some e)
              | none =>
                  let (reqs, acc2, cache3, err2) :=
                    sweepLoop locale filters query api rest (acc ++ cards) cache2
                  (req :: reqs, acc2, cache3, err2)

/-- Result of a `fetch_all_cards` run: the `fetch_page` requests issued,
the cache state reached, and either `(cards, meta)` or the error that
escaped. -/
structure SweepResult where
  requests : List Request
  cache : Cache
  result : Except String (List JVal × JVal)
deriving Repr

/-- `fetch_all_cards` from the source: one zero-size probe to learn the
total, an early return when the total is zero, then fixed-size page
requests advancing by `PAGE_SIZE` up to `min(total, max_pages * PAGE_SIZE)`,
accumulating cards and feeding `_index_cards`; the returned metadata is
always the probe body. -/
def fetch_all_cards (locale filters query : String) (max_pages : Nat)
    (api : Api) (cache : Cache) : SweepResult :=
  let preq := probeReq locale filters query
  match api preq with
  | .error e => ⟨[preq], cache, .error e⟩
  | .ok meta =>
      match totalCountOf meta with
      | .error e => ⟨[preq], cache, .error e⟩
      | .ok total =>
          if total = 0 then ⟨[preq], cache, .ok ([], meta)⟩
          else
            let (reqs, cards, cache2, err) :=
              sweepLoop locale filters query api (pageSkips total max_pages) [] cache
            ⟨preq :: reqs, cache2,
              match err with
              | some e => .error e
              | none => .ok (cards, meta)⟩

/-! ## `get_event_details` -/

/-- Python's `card = _seen_cards.get(key)` followed by `if not card:`:
a hit requires a present and truthy card. -/
def cacheHit (cache : Cache) (key : String × JVal) : Option JVal :=
  match cacheFind cache key with
  | some card => if card.truthy then some card else none
  | none => none

/-- The JSON document returned by `get_event_details`. -/
inductive DetailsOut where
  | found (parsed : Parsed) (rawContent : JVal)
  | notFound (eventId : String)
deriving DecidableEq, Repr

/-- The found branch: project the card and attach the raw content. -/
def detailsOf (card : JVal) : Except String DetailsOut := do
  let parsed ← parse_card card
  let raw ← card.getD "content" .objNil
  pure (.found parsed raw)

/-- A `fetch_all_cards` invocation, by its arguments
`(locale, filters, query, max_pages)`. -/
abbrev SweepCall := String × String × String × Nat

/-- Result of a `get_event_details` run. -/
structure DetailsResult where
  sweepCalls : List SweepCall
  cache : Cache
  outcome : Except String DetailsOut
deriving Repr

/-- `get_event_details` from the source: check the index; on a miss run
one unfiltered, un-queried sweep with page cap 50 and re-check; if the
id is still absent return the structured not-found document. -/
def get_event_details (event_id locale : String) (api : Api) (cache : Cache) :
    DetailsResult :=
  let key : String × JVal := (locale, .str event_id)
  match cacheHit cache key with
  | some card => ⟨[], cache, detailsOf card⟩
  | none =>
      let s := fetch_all_cards locale "" "" 50 api cache
      match s.result with
      | .error e => ⟨[(locale, "", "", 50)], s.cache, .error e⟩
      | .ok _ =>
          match cacheHit s.cache key with
          | some card => ⟨[(locale, "", "", 50)], s.cache, detailsOf card⟩
          | none => ⟨[(locale, "", "", 50)], s.cache, .ok (.notFound event_id)⟩

/-! ## `search_events` -/

/-- The JSON document returned by `search_events`. -/
structure SearchOut where
  total_count : JVal
  returned : Nat
  events : List Parsed
deriving Repr

/-- `search_events` from the source: run a sweep with the default page
cap of 20, project every card, report the probe's total count, the
number of projected events and the list itself.  The first component is
the cache state reached (also on an escaping error). -/
def search_events (filters query locale : String) (api : Api) (cache : Cache) :
    Cache × Except String SearchOut :=
  let s := fetch_all_cards locale filters query 20 api cache
  (s.cache, do
    let (cards, meta) ← s.result
    let events ← cards.mapM parse_card
    let total ← meta.getD "totalCount" (.num 0)
    pure ⟨total, events.length, events⟩)

/-! ## Facet grouping (`list_filters`, `get_event_stats`)

Both tools issue one zero-size probe, read `meta.get("facets", [])` and
group facet ids of the form `"category:value"` by category; the facet
loops and the per-category descending sort are embedded below.  Python's
`list.sort(key=lambda x: -x["count"])` is a stable sort; a stable
descending sort of a list is unique, so it is modelled by a stable
insertion sort. -/

/-- `":" in fid` for a string id. -/
def hasColon (s : String) : Bool := s.data.contains ':'

/-- Split a character list at the first colon. -/
def splitCharsAtColon : List Char → Option (List Char × List Char)
  | [] => none
  | c :: rest =>
      if c = ':' then some ([], rest)
      else
        match splitCharsAtColon rest with
        | some (a, b) => some (c :: a, b)
        | none => none

/-- `fid.split(":", 1)`: the part before the first colon and the rest
(the whole string when there is no colon; the code only calls this
after checking `":" in fid`). -/
def splitColon (s : String) : String × String :=
  match splitCharsAtColon s.data with
  | some (a, b) => (String.mk a, String.mk b)
  | none => (s, "")

/-- An entry `{"value": val, "count": count}` of `list_filters`. -/
structure FilterEntry where
  value : String
  count : Int
deriving DecidableEq, Repr

/-- An entry `{"name": val, "count": count}` of `get_event_stats`. -/
structure StatEntry where
  name : String
  count : Int
deriving DecidableEq, Repr

/-- `categories.setdefault(cat, []).append(e)`: append to the existing
category, or add a new category at the end (dict insertion order). -/
def addToCat {α : Type} (cats : List (String × List α)) (cat : String) (e : α) :
    List (String × List α) :=
  match cats with
  | [] => [(cat, [e])]
  | (c, l) :: rest =>
      if c = cat then (c, l ++ [e]) :: rest else (c, l) :: addToCat rest cat e

/-- The value list of a category (empty when the category is absent). -/
def catList {α : Type} (cats : List (String × List α)) (cat : String) : List α :=
  match cats with
  | [] => []
  | (c, l) :: rest => if c = cat then l else catList rest cat

/-- Stable insertion (descending by `cnt`): a later element is placed
after every earlier element of greater-or-equal count. -/
def insertCountDesc {α : Type} (cnt : α → Int) (x : α) : List α → List α
  | [] => [x]
  | y :: l => if cnt y > cnt x then y :: insertCountDesc cnt x l else x :: y :: l

/-- Stable descending sort by `cnt` (the unique stable descending
order, hence the result of Python's `sort(key=lambda x: -x["count"])`). -/
def sortCountDesc {α : Type} (cnt : α → Int) (l : List α) : List α :=
  l.foldr (insertCountDesc cnt) []

/-- One iteration of the `list_filters` facet loop: read `id` and
`count`, keep colon-shaped ids with positive count.  A non-string id or
(when the count is compared) a non-integer count is modelled as a
runtime `TypeError`. -/
def lfStep (cats : List (String × List FilterEntry)) (f : JVal) :
    Except String (List (String × List FilterEntry)) := do
  let fid ← f.getD "id" (.str "")
  let cnt ← f.getD "count" (.num 0)
  match fid with
  | .str i =>
      if hasColon i then
        match cnt with
        | .num c =>
            if 0 < c then
              pure (addToCat cats (splitColon i).1 ⟨(splitColon i).2, c⟩)
            else pure cats
        | _ => .error "TypeError"
      else pure cats
  | _ => .error "TypeError"

/-- The category map built by `list_filters` from a facet list:
grouping loop, then each category's values sorted by count descending. -/
def list_filters_categories (facets : List JVal) :
    Except String (List (String × List FilterEntry)) := do
  let cats ← facets.foldlM lfStep []
  pure (cats.map (fun p => (p.1, sortCountDesc (fun e => e.count) p.2)))

/-- One iteration of the `get_event_stats` facet loop: like `lfStep`
but without the positive-count test. -/
def statsStep (cats : List (String × List StatEntry)) (f : JVal) :
    Except String (List (String × List StatEntry)) := do
  let fid ← f.getD "id" (.str "")
  let cnt ← f.getD "count" (.num 0)
  match fid with
  | .str i =>
      if hasColon i then
        match cnt with
        | .num c => pure (addToCat cats (splitColon i).1 ⟨(splitColon i).2, c⟩)
        | _ => .error "TypeError"
      else pure cats
  | _ => .error "TypeError"

/-- The category map built by `get_event_stats` from a facet list:
grouping loop, per-category descending sort, then truncation to the
top 20 entries. -/
def get_event_stats_categories (facets : List JVal) :
    Except String (List (String × List StatEntry)) := do
  let cats ← facets.foldlM statsStep []
  pure (cats.map (fun p => (p.1, (sortCountDesc (fun e => e.count) p.2).take 20)))

/-- `meta.get("facets", [])` followed by iteration. -/
def facetsOf (meta : JVal) : Except String (List JVal) :=
  match meta.getD "facets" .arrNil with
  | .error e => .error e
  | .ok v =>
      match arrItems v with
      | some xs => .ok xs
      | none => .error "TypeError"

/-- `list_filters` from the source: one zero-size unfiltered probe,
then the grouping above; returns the probe's raw total count and the
categories. -/
def list_filters (locale : String) (api : Api) :
    Except String (JVal × List (String × List FilterEntry)) := do
  let meta ← api (probeReq locale "" "")
  let facets ← facetsOf meta
  let cats ← list_filters_categories facets
  let total ← meta.getD "totalCount" (.num 0)
  pure (total, cats)

/-- `get_event_stats` from the source: one zero-size probe with the
given filters, then the grouping above. -/
def get_event_stats (filters locale : String) (api : Api) :
    Except String (JVal × List (String × List StatEntry)) := do
  let meta ← api (probeReq locale filters "")
  let facets ← facetsOf meta
  let cats ← get_event_stats_categories facets
  let total ← meta.getD "totalCount" (.num 0)
  pure (total, cats)

/-! ## Specification-side description of the facet grouping

The following definitions transcribe the spec's words ("each facet id of
the form category:value with a positive occurrence count is grouped by
category with that value and count; facets without a colon separator,
or with zero count, are dropped") for comparison with the embedded
loops. -/

/-- The id value of a facet as the spec reads it (default `""`). -/
def facetIdOf (f : JVal) : JVal := (objLookup f "id").getD (.str "")

/-- The count value of a facet as the spec reads it (default `0`). -/
def facetCountOf (f : JVal) : JVal := (objLookup f "count").getD (.num 0)

/-- A facet the claims quantify over: a dict with a string id and an
integer count. -/
def FacetWF (f : JVal) : Bool :=
  f.isDict && (facetIdOf f).isStr && (facetCountOf f).isNum

/-- Spec side, `list_filters`: whether one facet is kept, and as what —
a colon-shaped id with positive count yields its `(category, entry)`
pair. -/
def lfKeep (f : JVal) : Option (String × FilterEntry) :=
  match facetIdOf f, facetCountOf f with
  | .str i, .num c =>
      if hasColon i && 0 < c then
        some ((splitColon i).1, ⟨(splitColon i).2, c⟩)
      else none
  | _, _ => none

/-- Spec side, `get_event_stats`: whether one facet is kept — a
colon-shaped id with any count (zero-count facets are retained). -/
def statsKeep (f : JVal) : Option (String × StatEntry) :=
  match facetIdOf f, facetCountOf f with
  | .str i, .num c =>
      if hasColon i then
        some ((splitColon i).1, ⟨(splitColon i).2, c⟩)
      else none
  | _, _ => none

/-- Spec side, `list_filters`: the facets kept, as `(category, entry)`
pairs in input order. -/
def specKeptLF (facets : List JVal) : List (String × FilterEntry) :=
  facets.filterMap lfKeep

/-- Spec side, `get_event_stats`: the facets kept, as
`(category, entry)` pairs in input order. -/
def specKeptStats (facets : List JVal) : List (String × StatEntry) :=
  facets.filterMap statsKeep

/-- Spec side: the entries of one category, in input order. -/
def specCatLF (facets : List JVal) (cat : String) : List FilterEntry :=
  ((specKeptLF facets).filter (fun p => p.1 = cat)).map (fun p => p.2)

/-- Spec side: the entries of one category, in input order. -/
def specCatStats (facets : List JVal) (cat : String) : List StatEntry :=
  ((specKeptStats facets).filter (fun p => p.1 = cat)).map (fun p => p.2)

/-! ## Operation-level view of the cache

Every tool invocation transforms the process-wide `_seen_cards` dict:
`search_events` and `get_event_details` through `fetch_all_cards` (the
cache state reached is kept even when an error escapes mid-sweep),
`list_filters` and `get_event_stats` never touch it.  `indexOp` and
`sweepOp` expose the two internal cache writers directly. -/

/-- One tool or internal invocation, with its transport oracle. -/
inductive ServerOp where
  | searchOp (filters query locale : String) (api : Api)
  | detailsOp (event_id locale : String) (api : Api)
  | listFiltersOp (locale : String) (api : Api)
  | statsOp (filters locale : String) (api : Api)
  | indexOp (locale : String) (cards : List JVal)
  | sweepOp (locale filters query : String) (max_pages : Nat) (api : Api)

/-- The cache state after one operation. -/
def applyOp (cache : Cache) : ServerOp → Cache
  | .searchOp f q l api => (search_events f q l api cache).1
  | .detailsOp e l api => (get_event_details e l api cache).cache
  | .listFiltersOp _ _ => cache
  | .statsOp _ _ _ => cache
  | .indexOp l cards => (_index_cards l cards cache).1
  | .sweepOp l f q m api => (fetch_all_cards l f q m api cache).cache

/-! ## Helper lemmas -/

theorem ebind_ok {α β : Type} {ε : Type} (x : α) (f : α → Except ε β) :
    ((Except.ok x : Except ε α) >>= f) = f x := rfl

theorem ebind_err {α β : Type} {ε : Type} (e : ε) (f : α → Except ε β) :
    ((Except.error e : Except ε α) >>= f) = .error e := rfl

/-- Pure view of `v.get(key, dflt)` on a dict. -/
def pyGet (v : JVal) (key : String) (dflt : JVal) : JVal :=
  (objLookup v key).getD dflt

theorem getD_dict {v : JVal} (h : v.isDict = true) (key : String) (dflt : JVal) :
    v.getD key dflt = .ok (pyGet v key dflt) := by
  simp [JVal.getD, pyGet, h]

theorem getD_not_dict {v : JVal} (h : v.isDict = false) (key : String) (dflt : JVal) :
    v.getD key dflt = .error "AttributeError" := by
  simp [JVal.getD, h]

/-! ## Claim C2: retry with doubling backoff -/

/-- Claim C2: `fetch_page` retries only on transport failure, at most
`MAX_RETRIES` attempts, never sleeping after the final attempt (at most
`MAX_RETRIES - 1` sleeps on any run); a run that succeeds immediately
performs no sleep; a run that fails once then succeeds sleeps
`RETRY_BACKOFF`; a run that fails twice then succeeds sleeps exactly
`RETRY_BACKOFF` and `RETRY_BACKOFF * 2` and returns the parsed body of
the successful attempt; a run that fails on every attempt raises the
error of the last attempt after exactly `MAX_RETRIES - 1` sleeps. -/
theorem fetch_page_retry (outcomes : Nat → Except String JVal)
    (e0 e1 e2 : String) (v : JVal) :
    (fetch_page_run outcomes).1.length ≤ MAX_RETRIES - 1 ∧
    (outcomes 0 = .ok v → fetch_page_run outcomes = ([], .ok v)) ∧
    (outcomes 0 = .error e0 → outcomes 1 = .ok v →
      fetch_page_run outcomes = ([RETRY_BACKOFF], .ok v)) ∧
    (outcomes 0 = .error e0 → outcomes 1 = .error e1 → outcomes 2 = .ok v →
      fetch_page_run outcomes = ([RETRY_BACKOFF, RETRY_BACKOFF * 2], .ok v)) ∧
    (outcomes 0 = .error e0 → outcomes 1 = .error e1 → outcomes 2 = .error e2 →
      fetch_page_run outcomes = ([RETRY_BACKOFF, RETRY_BACKOFF * 2], .error e2)) := by
  rcases h0 : outcomes 0 with f0 | v0 <;>
    rcases h1 : outcomes 1 with f1 | v1 <;>
      rcases h2 : outcomes 2 with f2 | v2 <;>
        simp [fetch_page_run, retryGo, MAX_RETRIES, RETRY_BACKOFF, h0, h1, h2]

/-- Witness for C2: two timeouts then a success sleep 2 and 4 seconds
and return the third attempt's body. -/
theorem fetch_page_retry_witness :
    fetch_page_run (fun n => if n < 2 then .error "timed out" else .ok (.num 7)) =
      ([2, 4], .ok (.num 7)) := by
  exact (fetch_page_retry (fun n => if n < 2 then .error "timed out" else .ok (.num 7))
    "timed out" "timed out" "x" (.num 7)).2.2.2.1 rfl rfl rfl

/-! ## Claim C3: defensiveness of `parse_card` -/

/-- Counterexample for C3: a record whose `content` wrapper is
explicitly null makes `parse_card` raise (the source guards
`location`/`eventDates`/`action` with `or {}` but not `content`), and an
explicitly null leaf (here `name`) is passed through as null rather
than replaced by the empty string. -/
theorem parse_card_null_counterexample :
    parse_card (JVal.mkObj [("content", .null)]) = .error "AttributeError" ∧
    (parse_card (JVal.mkObj [("content", JVal.mkObj [("name", .null)])])).map
        Parsed.name = .ok .null := ⟨rfl, rfl⟩

/-- Claim C3 (amended): for every record that is a dict whose `content`
value (defaulting to the empty dict) is a dict, and whose `location`,
`eventDates` and `action` values each normalise to a dict under `or {}`
(i.e. are missing, falsy — in particular explicitly null — or dicts),
`parse_card` succeeds and each flat field is the stored leaf value when
the key is present and the empty string (empty list for the tag list)
when the key is absent.  (A null `content` wrapper raises, and a null
leaf is passed through as null, per the counterexample.) -/
theorem parse_card_defensive (card content location dates action : JVal)
    (hcard : card.isDict = true)
    (hceq : pyGet card "content" .objNil = content)
    (hc : content.isDict = true)
    (hleq : orEmptyDict (pyGet content "location" .objNil) = location)
    (hl : location.isDict = true)
    (hdeq : orEmptyDict (pyGet content "eventDates" .objNil) = dates)
    (hd : dates.isDict = true)
    (haeq : orEmptyDict (pyGet content "action" .objNil) = action)
    (ha : action.isDict = true) :
    parse_card card = .ok
      ⟨pyGet content "id" (.str ""), pyGet content "name" (.str ""),
       pyGet content "title" (.str ""), pyGet content "description" (.str ""),
       pyGet content "format" (.str ""), pyGet content "formatEnglishName" (.str ""),
       pyGet action "href" (.str ""), pyGet location "city" (.str ""),
       pyGet location "state" (.str ""), pyGet location "country" (.str ""),
       pyGet dates "startDate" (.str ""), pyGet dates "endDate" (.str ""),
       pyGet content "filterIds" .arrNil⟩ := by
  unfold parse_card
  rw [getD_dict hcard, hceq, ebind_ok, getD_dict hc, ebind_ok, hleq,
      getD_dict hc, ebind_ok, hdeq, getD_dict hc, ebind_ok, haeq,
      getD_dict hc, ebind_ok, getD_dict hc, ebind_ok, getD_dict hc, ebind_ok,
      getD_dict hc, ebind_ok, getD_dict hc, ebind_ok, getD_dict hc, ebind_ok,
      getD_dict ha, ebind_ok, getD_dict hl, ebind_ok, getD_dict hl, ebind_ok,
      getD_dict hl, ebind_ok, getD_dict hd, ebind_ok, getD_dict hd, ebind_ok,
      getD_dict hc, ebind_ok]
  rfl

/-- Witness for C3 (amended): a record with null `location`,
`eventDates` and `action` and no other leaves projects to all-empty
defaults without failing. -/
theorem parse_card_defensive_witness :
    parse_card (JVal.mkObj [("content", JVal.mkObj
        [("location", .null), ("eventDates", .null), ("action", .null)])]) =
      .ok ⟨.str "", .str "", .str "", .str "", .str "", .str "", .str "",
           .str "", .str "", .str "", .str "", .str "", .arrNil⟩ := by
  exact parse_card_defensive
    (JVal.mkObj [("content", JVal.mkObj
        [("location", .null), ("eventDates", .null), ("action", .null)])])
    (JVal.mkObj [("location", .null), ("eventDates", .null), ("action", .null)])
    .objNil .objNil .objNil rfl rfl rfl rfl rfl rfl rfl rfl rfl

/-! ## Cache lemmas -/

theorem cacheFind_nil (key : String × JVal) : cacheFind [] key = none := rfl

theorem cacheFind_cons (k1 : String × JVal) (v1 : JVal) (rest : Cache)
    (key : String × JVal) :
    cacheFind ((k1, v1) :: rest) key = if k1 = key then some v1 else cacheFind rest key := rfl

theorem cacheFind_map_replace (c : Cache) (k : String × JVal) (v : JVal) :
    cacheFind (c.map (fun p => if p.1 = k then (k, v) else p)) k =
      if (cacheFind c k).isSome then some v else none := by
  induction c with
  | nil => rfl
  | cons p rest ih =>
      rcases p with ⟨k1, v1⟩
      simp only [List.map_cons]
      by_cases h : k1 = k
      · rw [if_pos h, cacheFind_cons, if_pos rfl, cacheFind_cons, if_pos h]
        simp
      · rw [if_neg h, cacheFind_cons, if_neg h, cacheFind_cons, if_neg h, ih]

theorem cacheFind_append_right (c : Cache) (k : String × JVal) (v : JVal)
    (h : cacheFind c k = none) : cacheFind (c ++ [(k, v)]) k = some v := by
  induction c with
  | nil => simp [cacheFind]
  | cons p rest ih =>
      rcases p with ⟨k1, v1⟩
      by_cases hk : k1 = k
      · simp [cacheFind, hk] at h
      · simp [cacheFind, hk] at h ⊢; exact ih h

theorem cacheFind_cacheInsert (c : Cache) (k : String × JVal) (v : JVal) :
    cacheFind (cacheInsert c k v) k = some v := by
  unfold cacheInsert
  by_cases h : (cacheFind c k).isSome
  · simp [h, cacheFind_map_replace]
  · have hn : cacheFind c k = none := by
      cases hc : cacheFind c k with
      | none => rfl
      | some x => rw [hc] at h; simp at h
    simp [h, cacheFind_append_right c k v hn]

theorem countKey_map_replace (c : Cache) (k : String × JVal) (v : JVal) :
    countKey (c.map (fun p => if p.1 = k then (k, v) else p)) k = countKey c k := by
  unfold countKey
  rw [List.countP_map]
  congr 1
  funext p
  by_cases h : p.1 = k <;> simp [h]

theorem countKey_append_self (c : Cache) (k : String × JVal) (v : JVal) :
    countKey (c ++ [(k, v)]) k = countKey c k + 1 := by
  simp [countKey, List.countP_append]

theorem cacheFind_none_countKey (c : Cache) (k : String × JVal)
    (h : cacheFind c k = none) : countKey c k = 0 := by
  induction c with
  | nil => simp [countKey]
  | cons p rest ih =>
      rcases p with ⟨k1, v1⟩
      by_cases hk : k1 = k
      · simp [cacheFind, hk] at h
      · simp [cacheFind, hk] at h
        simp [countKey, List.countP_cons, hk] at ih ⊢
        exact ih h

theorem cacheFind_some_countKey (c : Cache) (k : String × JVal) (v : JVal)
    (h : cacheFind c k = some v) : 1 ≤ countKey c k := by
  induction c with
  | nil => simp [cacheFind] at h
  | cons p rest ih =>
      rcases p with ⟨k1, v1⟩
      by_cases hk : k1 = k
      · simp [countKey, List.countP_cons, hk]
      · simp [cacheFind, hk] at h
        simp [countKey, List.countP_cons, hk]
        simpa [countKey] using ih h

theorem countKey_cacheInsert (c : Cache) (k : String × JVal) (v : JVal)
    (h : countKey c k ≤ 1) : countKey (cacheInsert c k v) k = 1 := by
  unfold cacheInsert
  by_cases hs : (cacheFind c k).isSome
  · rw [if_pos hs, countKey_map_replace]
    cases hc : cacheFind c k with
    | none => rw [hc] at hs; simp at hs
    | some x => have := cacheFind_some_countKey c k x hc; omega
  · have hn : cacheFind c k = none := by
      cases hc : cacheFind c k with
      | none => rfl
      | some x => rw [hc] at hs; simp at hs
    rw [if_neg hs, countKey_append_self, cacheFind_none_countKey c k hn]

theorem index_cards_single (locale : String) (card eid : JVal) (cache : Cache)
    (h : extractId card = .ok eid) :
    _index_cards locale [card] cache =
      (if eid.truthy then cacheInsert cache (locale, eid) card else cache, none) := by
  simp [_index_cards, h]

/-! ## Claim C4: indexing stores exactly the truthy-id records -/

/-- Counterexample for C4: a record with an explicitly null `content`
wrapper has no identifier, yet indexing it raises (`AttributeError`
from `.get` on `None`) instead of being a silent no-op. -/
theorem index_cards_raise_counterexample :
    _index_cards "de-de" [JVal.mkObj [("content", .null)]] [] =
      ([], some "AttributeError") := rfl

/-- Claim C4 (amended): for every record whose identifier extraction
succeeds (the record is a dict and its `content` value, when present,
is a dict), indexing stores the record under `(locale, identifier)` iff
the extracted identifier is truthy (for a string id: non-empty); an
empty identifier leaves the cache unchanged without failing; and
indexing two records with the same truthy identifier is idempotent,
leaving exactly one entry under that key, holding the most recent
record.  (A record on which extraction raises — e.g. a null `content`
wrapper — makes the call fail, per the counterexample.) -/
theorem index_cards_spec (locale : String) (card card2 eid : JVal) (cache : Cache)
    (h1 : extractId card = .ok eid) (h2 : extractId card2 = .ok eid) :
    (eid.truthy = true →
        _index_cards locale [card] cache = (cacheInsert cache (locale, eid) card, none) ∧
        cacheFind (_index_cards locale [card] cache).1 (locale, eid) = some card) ∧
    (eid.truthy = false → _index_cards locale [card] cache = (cache, none)) ∧
    (eid.truthy = true → countKey cache (locale, eid) ≤ 1 →
        cacheFind (_index_cards locale [card2]
            (_index_cards locale [card] cache).1).1 (locale, eid) = some card2 ∧
        countKey (_index_cards locale [card2]
            (_index_cards locale [card] cache).1).1 (locale, eid) = 1) := by
  refine ⟨?_, ?_, ?_⟩
  · intro ht
    rw [index_cards_single locale card eid cache h1, if_pos ht]
    exact ⟨rfl, cacheFind_cacheInsert cache (locale, eid) card⟩
  · intro hf
    rw [index_cards_single locale card eid cache h1, if_neg (by simp [hf])]
  · intro ht hcount
    rw [index_cards_single locale card eid cache h1, if_pos ht]
    rw [index_cards_single locale card2 eid (cacheInsert cache (locale, eid) card) h2,
        if_pos ht]
    refine ⟨cacheFind_cacheInsert _ _ _, ?_⟩
    exact countKey_cacheInsert _ _ _
      (le_of_eq (countKey_cacheInsert cache (locale, eid) card hcount))

/-- Witness for C4 (amended): indexing a concrete record twice under
id `"e1"` leaves exactly one entry holding the second record, and a
record with an empty id is a no-op. -/
theorem index_cards_spec_witness :
    cacheFind (_index_cards "de-de"
        [JVal.mkObj [("content", JVal.mkObj [("id", .str "e1"), ("name", .str "B")])]]
        (_index_cards "de-de"
          [JVal.mkObj [("content", JVal.mkObj [("id", .str "e1"), ("name", .str "A")])]]
          []).1).1 ("de-de", .str "e1") =
      some (JVal.mkObj [("content", JVal.mkObj [("id", .str "e1"), ("name", .str "B")])]) ∧
    countKey (_index_cards "de-de"
        [JVal.mkObj [("content", JVal.mkObj [("id", .str "e1"), ("name", .str "B")])]]
        (_index_cards "de-de"
          [JVal.mkObj [("content", JVal.mkObj [("id", .str "e1"), ("name", .str "A")])]]
          []).1).1 ("de-de", .str "e1") = 1 ∧
    _index_cards "de-de" [JVal.mkObj [("content", JVal.mkObj [("id", .str "")])]] [] =
      ([], none) := by
  refine ⟨?_, ?_, ?_⟩
  · exact ((index_cards_spec "de-de"
      (JVal.mkObj [("content", JVal.mkObj [("id", .str "e1"), ("name", .str "A")])])
      (JVal.mkObj [("content", JVal.mkObj [("id", .str "e1"), ("name", .str "B")])])
      (.str "e1") [] rfl rfl).2.2 (by decide) (by decide)).1
  · exact ((index_cards_spec "de-de"
      (JVal.mkObj [("content", JVal.mkObj [("id", .str "e1"), ("name", .str "A")])])
      (JVal.mkObj [("content", JVal.mkObj [("id", .str "e1"), ("name", .str "B")])])
      (.str "e1") [] rfl rfl).2.2 (by decide) (by decide)).2
  · exact (index_cards_spec "de-de"
      (JVal.mkObj [("content", JVal.mkObj [("id", .str "")])])
      (JVal.mkObj [("content", JVal.mkObj [("id", .str "")])])
      (.str "") [] rfl rfl).2.1 (by decide)

/-! ## Sorting and grouping lemmas -/

theorem mem_insertCountDesc {α : Type} (cnt : α → Int) (x z : α) (l : List α) :
    z ∈ insertCountDesc cnt x l ↔ z = x ∨ z ∈ l := by
  induction l with
  | nil => simp [insertCountDesc]
  | cons y t ih =>
      by_cases h : cnt y > cnt x
      · simp [insertCountDesc, h, ih]; tauto
      · simp [insertCountDesc, h]

theorem pairwise_insertCountDesc {α : Type} (cnt : α → Int) (x : α) (l : List α)
    (h : l.Pairwise (fun a b => cnt b ≤ cnt a)) :
    (insertCountDesc cnt x l).Pairwise (fun a b => cnt b ≤ cnt a) := by
  induction l with
  | nil => simp [insertCountDesc]
  | cons y t ih =>
      rcases List.pairwise_cons.mp h with ⟨hy, ht⟩
      by_cases hgt : cnt y > cnt x
      · simp only [insertCountDesc, if_pos hgt]
        refine List.pairwise_cons.mpr ⟨?_, ih ht⟩
        intro z hz
        rcases (mem_insertCountDesc cnt x z t).mp hz with rfl | hzt
        · omega
        · exact hy z hzt
      · simp only [insertCountDesc, if_neg hgt]
        refine List.pairwise_cons.mpr ⟨?_, h⟩
        intro z hz
        rcases List.mem_cons.mp hz with rfl | hzt
        · omega
        · have := hy z hzt; omega

theorem sortCountDesc_pairwise {α : Type} (cnt : α → Int) (l : List α) :
    (sortCountDesc cnt l).Pairwise (fun a b => cnt b ≤ cnt a) := by
  induction l with
  | nil => simp [sortCountDesc]
  | cons x t ih => exact pairwise_insertCountDesc cnt x _ ih

theorem filter_insertCountDesc {α : Type} (cnt : α → Int) (c : Int) (x : α)
    (l : List α) :
    (insertCountDesc cnt x l).filter (fun e => cnt e = c) =
      if cnt x = c then x :: l.filter (fun e => cnt e = c)
      else l.filter (fun e => cnt e = c) := by
  induction l with
  | nil => by_cases h : cnt x = c <;> simp [insertCountDesc, h]
  | cons y t ih =>
      by_cases hgt : cnt y > cnt x
      · simp only [insertCountDesc, if_pos hgt]
        by_cases hyc : cnt y = c
        · have hxc : ¬ cnt x = c := by omega
          simp [List.filter_cons, hyc, hxc, ih]
        · simp [List.filter_cons, hyc, ih]
      · simp only [insertCountDesc, if_neg hgt]
        by_cases hxc : cnt x = c <;> simp [List.filter_cons, hxc]

theorem filter_sortCountDesc {α : Type} (cnt : α → Int) (c : Int) (l : List α) :
    (sortCountDesc cnt l).filter (fun e => cnt e = c) =
      l.filter (fun e => cnt e = c) := by
  induction l with
  | nil => rfl
  | cons x t ih =>
      show (insertCountDesc cnt x (sortCountDesc cnt t)).filter _ = _
      rw [filter_insertCountDesc]
      by_cases hxc : cnt x = c <;> simp [List.filter_cons, hxc, ih]

theorem pairwise_take_drop {α : Type} (R : α → α → Prop) (l : List α) (n : Nat)
    (h : l.Pairwise R) : ∀ x ∈ l.take n, ∀ y ∈ l.drop n, R x y := by
  have hsplit := List.take_append_drop n l
  rw [← hsplit] at h
  exact (List.pairwise_append.mp h).2.2

theorem catList_addToCat {α : Type} (cats : List (String × List α)) (cat : String)
    (e : α) (cat2 : String) :
    catList (addToCat cats cat e) cat2 =
      catList cats cat2 ++ (if cat = cat2 then [e] else []) := by
  induction cats with
  | nil => by_cases h : cat = cat2 <;> simp [addToCat, catList, h]
  | cons p rest ih =>
      rcases p with ⟨c, l⟩
      by_cases hc : c = cat
      · subst hc
        simp only [addToCat, if_pos rfl]
        by_cases h2 : c = cat2 <;> simp [catList, h2]
      · simp only [addToCat, if_neg hc]
        by_cases h2 : c = cat2
        · subst h2
          simp [catList, ih, Ne.symm hc]
        · simp [catList, h2, ih]

theorem catList_foldl {α : Type} (ps : List (String × α))
    (cats : List (String × List α)) (cat : String) :
    catList (ps.foldl (fun cs p => addToCat cs p.1 p.2) cats) cat =
      catList cats cat ++ (ps.filter (fun p => p.1 = cat)).map (fun p => p.2) := by
  induction ps generalizing cats with
  | nil => simp
  | cons p t ih =>
      rcases p with ⟨c, e⟩
      simp only [List.foldl_cons]
      rw [ih, catList_addToCat]
      by_cases h : c = cat <;> simp [List.filter_cons, h, List.append_assoc]

theorem catList_mapValues {α β : Type} (g : List α → List β) (hg : g [] = [])
    (cats : List (String × List α)) (cat : String) :
    catList (cats.map (fun p => (p.1, g p.2))) cat = g (catList cats cat) := by
  induction cats with
  | nil => simp [catList, hg]
  | cons p rest ih =>
      rcases p with ⟨c, l⟩
      by_cases h : c = cat <;> simp [catList, h, ih]

theorem isStr_exists {v : JVal} (h : v.isStr = true) : ∃ s, v = .str s := by
  cases v <;> simp [JVal.isStr] at h ⊢

theorem isNum_exists {v : JVal} (h : v.isNum = true) : ∃ n, v = .num n := by
  cases v <;> simp [JVal.isNum] at h ⊢

theorem lfStep_wf (cats : List (String × List FilterEntry)) (f : JVal)
    (h : FacetWF f = true) :
    lfStep cats f = .ok (match lfKeep f with
      | some (c, e) => addToCat cats c e
      | none => cats) := by
  simp only [FacetWF, Bool.and_eq_true] at h
  obtain ⟨⟨hd, hs⟩, hn⟩ := h
  obtain ⟨i, hi⟩ := isStr_exists hs
  obtain ⟨n, hcnt⟩ := isNum_exists hn
  unfold lfStep
  rw [getD_dict hd, ebind_ok, getD_dict hd, ebind_ok,
      show pyGet f "id" (.str "") = facetIdOf f from rfl,
      show pyGet f "count" (.num 0) = facetCountOf f from rfl, hi, hcnt]
  unfold lfKeep
  rw [hi, hcnt]
  by_cases hcol : hasColon i
  · by_cases hpos : (0 : Int) < n <;> simp [hcol, hpos] <;> rfl
  · simp [hcol]; rfl

theorem statsStep_wf (cats : List (String × List StatEntry)) (f : JVal)
    (h : FacetWF f = true) :
    statsStep cats f = .ok (match statsKeep f with
      | some (c, e) => addToCat cats c e
      | none => cats) := by
  simp only [FacetWF, Bool.and_eq_true] at h
  obtain ⟨⟨hd, hs⟩, hn⟩ := h
  obtain ⟨i, hi⟩ := isStr_exists hs
  obtain ⟨n, hcnt⟩ := isNum_exists hn
  unfold statsStep
  rw [getD_dict hd, ebind_ok, getD_dict hd, ebind_ok,
      show pyGet f "id" (.str "") = facetIdOf f from rfl,
      show pyGet f "count" (.num 0) = facetCountOf f from rfl, hi, hcnt]
  unfold statsKeep
  rw [hi, hcnt]
  by_cases hcol : hasColon i <;> simp [hcol] <;> rfl

theorem foldlM_lfStep (facets : List JVal) (h : ∀ f ∈ facets, FacetWF f = true)
    (cats : List (String × List FilterEntry)) :
    facets.foldlM lfStep cats =
      .ok ((specKeptLF facets).foldl (fun cs p => addToCat cs p.1 p.2) cats) := by
  induction facets generalizing cats with
  | nil => rfl
  | cons f t ih =>
      have hf := h f (List.mem_cons_self f t)
      have ht : ∀ g ∈ t, FacetWF g = true := fun g hg => h g (List.mem_cons_of_mem f hg)
      simp only [List.foldlM_cons]
      rw [lfStep_wf cats f hf]
      cases hk : lfKeep f with
      | some p =>
          rcases p with ⟨c, e⟩
          simp only [hk, ebind_ok]
          rw [ih ht]
          simp [specKeptLF, List.filterMap_cons, hk]
      | none =>
          simp only [hk, ebind_ok]
          rw [ih ht]
          simp [specKeptLF, List.filterMap_cons, hk]

theorem foldlM_statsStep (facets : List JVal) (h : ∀ f ∈ facets, FacetWF f = true)
    (cats : List (String × List StatEntry)) :
    facets.foldlM statsStep cats =
      .ok ((specKeptStats facets).foldl (fun cs p => addToCat cs p.1 p.2) cats) := by
  induction facets generalizing cats with
  | nil => rfl
  | cons f t ih =>
      have hf := h f (List.mem_cons_self f t)
      have ht : ∀ g ∈ t, FacetWF g = true := fun g hg => h g (List.mem_cons_of_mem f hg)
      simp only [List.foldlM_cons]
      rw [statsStep_wf cats f hf]
      cases hk : statsKeep f with
      | some p =>
          rcases p with ⟨c, e⟩
          simp only [hk, ebind_ok]
          rw [ih ht]
          simp [specKeptStats, List.filterMap_cons, hk]
      | none =>
          simp only [hk, ebind_ok]
          rw [ih ht]
          simp [specKeptStats, List.filterMap_cons, hk]

theorem lf_categories_char (facets : List JVal) (h : ∀ f ∈ facets, FacetWF f = true) :
    list_filters_categories facets =
      .ok (((specKeptLF facets).foldl (fun cs p => addToCat cs p.1 p.2) []).map
        (fun p => (p.1, sortCountDesc (fun e => e.count) p.2))) ∧
    ∀ out, list_filters_categories facets = .ok out →
      ∀ cat, catList out cat = sortCountDesc (fun e => e.count) (specCatLF facets cat) := by
  have heq : list_filters_categories facets =
      .ok (((specKeptLF facets).foldl (fun cs p => addToCat cs p.1 p.2) []).map
        (fun p => (p.1, sortCountDesc (fun e => e.count) p.2))) := by
    unfold list_filters_categories
    rw [foldlM_lfStep facets h, ebind_ok]
    rfl
  refine ⟨heq, ?_⟩
  intro out hout cat
  rw [heq] at hout
  cases hout
  rw [catList_mapValues (fun l : List FilterEntry => sortCountDesc (fun e => e.count) l) rfl,
      catList_foldl]
  simp [specCatLF, catList]

theorem stats_categories_char (facets : List JVal)
    (h : ∀ f ∈ facets, FacetWF f = true) :
    get_event_stats_categories facets =
      .ok (((specKeptStats facets).foldl (fun cs p => addToCat cs p.1 p.2) []).map
        (fun p => (p.1, (sortCountDesc (fun e => e.count) p.2).take 20))) ∧
    ∀ out, get_event_stats_categories facets = .ok out →
      ∀ cat, catList out cat =
        (sortCountDesc (fun e => e.count) (specCatStats facets cat)).take 20 := by
  have heq : get_event_stats_categories facets =
      .ok (((specKeptStats facets).foldl (fun cs p => addToCat cs p.1 p.2) []).map
        (fun p => (p.1, (sortCountDesc (fun e => e.count) p.2).take 20))) := by
    unfold get_event_stats_categories
    rw [foldlM_statsStep facets h, ebind_ok]
    rfl
  refine ⟨heq, ?_⟩
  intro out hout cat
  rw [heq] at hout
  cases hout
  rw [catList_mapValues (fun l : List StatEntry => (sortCountDesc (fun e => e.count) l).take 20) rfl,
      catList_foldl]
  simp [specCatStats, catList]

/-! ## Claim C6: facet grouping and dropping -/

/-- Claim C6: for every facet list (facets being dicts with string ids
and integer counts), `list_filters` groups exactly the facets whose id
splits at its first colon into `category:value` and whose count is
positive, each under its category with that value and count (the
category lists being the kept facets in input order, descending-sorted
by count); facets without a colon or without positive count are
dropped.  `get_event_stats` applies the same colon-based grouping but
retains non-positive counts, dropping only colon-less ids (its output
additionally truncated to 20 per category, stated in C7). -/
theorem facet_grouping (facets : List JVal) (h : ∀ f ∈ facets, FacetWF f = true) :
    (∃ out, list_filters_categories facets = .ok out ∧
        ∀ cat, catList out cat =
          sortCountDesc (fun e => e.count) (specCatLF facets cat)) ∧
    (∃ out, get_event_stats_categories facets = .ok out ∧
        ∀ cat, catList out cat =
          (sortCountDesc (fun e => e.count) (specCatStats facets cat)).take 20) := by
  obtain ⟨heq, hchar⟩ := lf_categories_char facets h
  obtain ⟨heq2, hchar2⟩ := stats_categories_char facets h
  exact ⟨⟨_, heq, hchar _ heq⟩, ⟨_, heq2, hchar2 _ heq2⟩⟩

/-- Witness for C6: `topic:ai` (count 50) is grouped, `topic:old`
(count 0) is dropped by `list_filters` but kept by `get_event_stats`,
and colon-less `malformed` is dropped by both. -/
theorem facet_grouping_witness :
    (∃ out, list_filters_categories
        [JVal.mkObj [("id", .str "topic:ai"), ("count", .num 50)],
         JVal.mkObj [("id", .str "topic:old"), ("count", .num 0)],
         JVal.mkObj [("id", .str "malformed"), ("count", .num 5)]] = .ok out ∧
       catList out "topic" = [⟨"ai", 50⟩] ∧ catList out "malformed" = []) ∧
    (∃ out, get_event_stats_categories
        [JVal.mkObj [("id", .str "topic:ai"), ("count", .num 50)],
         JVal.mkObj [("id", .str "topic:old"), ("count", .num 0)],
         JVal.mkObj [("id", .str "malformed"), ("count", .num 5)]] = .ok out ∧
       catList out "topic" = [⟨"ai", 50⟩, ⟨"old", 0⟩] ∧ catList out "malformed" = []) := by
  obtain ⟨⟨out1, h1, hc1⟩, ⟨out2, h2, hc2⟩⟩ := facet_grouping
    [JVal.mkObj [("id", .str "topic:ai"), ("count", .num 50)],
     JVal.mkObj [("id", .str "topic:old"), ("count", .num 0)],
     JVal.mkObj [("id", .str "malformed"), ("count", .num 5)]] (by decide)
  refine ⟨⟨out1, h1, ?_, ?_⟩, ⟨out2, h2, ?_, ?_⟩⟩
  · rw [hc1 "topic"]; rfl
  · rw [hc1 "malformed"]; rfl
  · rw [hc2 "topic"]; rfl
  · rw [hc2 "malformed"]; rfl

/-! ## Claim C7: per-category ordering, stability, truncation -/

/-- Claim C7: in both tools every category's values are ordered by
count descending and values of equal count keep the facet input order
(stable sort).  For `list_filters` this is stated by filtering at each
count: the output's count-`c` entries equal the input-order kept
entries of count `c`.  For `get_event_stats`, whose category lists are
additionally truncated to at most 20 entries after sorting, the
output's count-`c` entries form an initial segment (`... ++ t`) of the
input-order kept entries of count `c` — so the retained equal-count
values also appear in facet input order — and every retained entry's
count is at least every dropped entry's count. -/
theorem facet_sorting (facets : List JVal) (h : ∀ f ∈ facets, FacetWF f = true) :
    (∀ out, list_filters_categories facets = .ok out → ∀ cat,
        (catList out cat).Pairwise (fun a b => b.count ≤ a.count) ∧
        ∀ c : Int, (catList out cat).filter (fun e => e.count = c) =
          (specCatLF facets cat).filter (fun e => e.count = c)) ∧
    (∀ out, get_event_stats_categories facets = .ok out → ∀ cat,
        (catList out cat).Pairwise (fun a b => b.count ≤ a.count) ∧
        (catList out cat).length ≤ 20 ∧
        (∀ x ∈ catList out cat,
          ∀ y ∈ (sortCountDesc (fun e => e.count) (specCatStats facets cat)).drop 20,
            y.count ≤ x.count) ∧
        (∀ c : Int, ∃ t, (specCatStats facets cat).filter (fun e => e.count = c) =
          (catList out cat).filter (fun e => e.count = c) ++ t)) := by
  obtain ⟨_, hchar⟩ := lf_categories_char facets h
  obtain ⟨_, hchar2⟩ := stats_categories_char facets h
  constructor
  · intro out hout cat
    rw [hchar out hout cat]
    exact ⟨sortCountDesc_pairwise _ _, fun c => filter_sortCountDesc _ c _⟩
  · intro out hout cat
    rw [hchar2 out hout cat]
    refine ⟨?_, ?_, ?_, ?_⟩
    · exact List.Pairwise.sublist (List.take_sublist _ _) (sortCountDesc_pairwise _ _)
    · exact List.length_take_le _ _
    · intro x hx y hy
      exact pairwise_take_drop _ _ 20 (sortCountDesc_pairwise _ _) x hx y hy
    · intro c
      refine ⟨((sortCountDesc (fun e => e.count) (specCatStats facets cat)).drop
        20).filter (fun e => e.count = c), ?_⟩
      rw [← List.filter_append, List.take_append_drop, filter_sortCountDesc]

/-- Witness for C7: with counts 5, 9, 5 in category `a`, both tools
output the order 9, 5, 5, and the two count-5 entries keep their input
order — exactly (`list_filters`) and as an initial segment of the
input-order entries (`get_event_stats`). -/
theorem facet_sorting_witness :
    (list_filters_categories
        [JVal.mkObj [("id", .str "a:x"), ("count", .num 5)],
         JVal.mkObj [("id", .str "a:y"), ("count", .num 9)],
         JVal.mkObj [("id", .str "a:z"), ("count", .num 5)]] =
      .ok [("a", [⟨"y", 9⟩, ⟨"x", 5⟩, ⟨"z", 5⟩])]) ∧
    List.Pairwise (fun a b => b.count ≤ a.count)
      [(⟨"y", 9⟩ : FilterEntry), ⟨"x", 5⟩, ⟨"z", 5⟩] ∧
    [(⟨"y", 9⟩ : FilterEntry), ⟨"x", 5⟩, ⟨"z", 5⟩].filter
        (fun e => e.count = (5 : Int)) = [⟨"x", 5⟩, ⟨"z", 5⟩] ∧
    (get_event_stats_categories
        [JVal.mkObj [("id", .str "a:x"), ("count", .num 5)],
         JVal.mkObj [("id", .str "a:y"), ("count", .num 9)],
         JVal.mkObj [("id", .str "a:z"), ("count", .num 5)]] =
      .ok [("a", [⟨"y", 9⟩, ⟨"x", 5⟩, ⟨"z", 5⟩])]) ∧
    (∃ t, (specCatStats
        [JVal.mkObj [("id", .str "a:x"), ("count", .num 5)],
         JVal.mkObj [("id", .str "a:y"), ("count", .num 9)],
         JVal.mkObj [("id", .str "a:z"), ("count", .num 5)]] "a").filter
          (fun e => e.count = (5 : Int)) =
      (catList [("a", [(⟨"y", 9⟩ : StatEntry), ⟨"x", 5⟩, ⟨"z", 5⟩])] "a").filter
          (fun e => e.count = (5 : Int)) ++ t) ∧
    (specCatStats
        [JVal.mkObj [("id", .str "a:x"), ("count", .num 5)],
         JVal.mkObj [("id", .str "a:y"), ("count", .num 9)],
         JVal.mkObj [("id", .str "a:z"), ("count", .num 5)]] "a").filter
        (fun e => e.count = (5 : Int)) = [⟨"x", 5⟩, ⟨"z", 5⟩] ∧
    (catList [("a", [(⟨"y", 9⟩ : StatEntry), ⟨"x", 5⟩, ⟨"z", 5⟩])] "a").filter
        (fun e => e.count = (5 : Int)) = [⟨"x", 5⟩, ⟨"z", 5⟩] := by
  have hout : list_filters_categories
      [JVal.mkObj [("id", .str "a:x"), ("count", .num 5)],
       JVal.mkObj [("id", .str "a:y"), ("count", .num 9)],
       JVal.mkObj [("id", .str "a:z"), ("count", .num 5)]] =
      .ok [("a", [⟨"y", 9⟩, ⟨"x", 5⟩, ⟨"z", 5⟩])] := rfl
  have hout2 : get_event_stats_categories
      [JVal.mkObj [("id", .str "a:x"), ("count", .num 5)],
       JVal.mkObj [("id", .str "a:y"), ("count", .num 9)],
       JVal.mkObj [("id", .str "a:z"), ("count", .num 5)]] =
      .ok [("a", [⟨"y", 9⟩, ⟨"x", 5⟩, ⟨"z", 5⟩])] := rfl
  have h := (facet_sorting
      [JVal.mkObj [("id", .str "a:x"), ("count", .num 5)],
       JVal.mkObj [("id", .str "a:y"), ("count", .num 9)],
       JVal.mkObj [("id", .str "a:z"), ("count", .num 5)]] (by decide)).1 _ hout "a"
  have h2 := (facet_sorting
      [JVal.mkObj [("id", .str "a:x"), ("count", .num 5)],
       JVal.mkObj [("id", .str "a:y"), ("count", .num 9)],
       JVal.mkObj [("id", .str "a:z"), ("count", .num 5)]] (by decide)).2 _ hout2 "a"
  refine ⟨hout, ?_, ?_, hout2, h2.2.2.2 5, rfl, rfl⟩
  · rw [show catList [("a", [(⟨"y", 9⟩ : FilterEntry), ⟨"x", 5⟩, ⟨"z", 5⟩])] "a" =
        [(⟨"y", 9⟩ : FilterEntry), ⟨"x", 5⟩, ⟨"z", 5⟩] from rfl] at h
    exact h.1
  · have h5 := h.2 5
    rw [show catList [("a", [(⟨"y", 9⟩ : FilterEntry), ⟨"x", 5⟩, ⟨"z", 5⟩])] "a" =
        [(⟨"y", 9⟩ : FilterEntry), ⟨"x", 5⟩, ⟨"z", 5⟩] from rfl] at h5
    rw [h5]; rfl

/-! ## Pagination lemmas -/

/-- All cards of a page can be indexed without raising. -/
def indexSafe (cards : List JVal) : Prop :=
  ∀ card ∈ cards, ∃ eid, extractId card = .ok eid

theorem index_cards_safe (locale : String) :
    ∀ (cards : List JVal) (cache : Cache), indexSafe cards →
      (_index_cards locale cards cache).2 = none
  | [], _, _ => rfl
  | card :: t, cache, h => by
      obtain ⟨eid, heid⟩ := h card (List.mem_cons_self card t)
      simp only [_index_cards, heid]
      exact index_cards_safe locale t _ (fun c hc => h c (List.mem_cons_of_mem card hc))

theorem sweepLoop_ok (locale filters query : String) (api : Api) (pg : Nat → List JVal) :
    ∀ (skips : List Nat) (acc : List JVal) (cache : Cache),
      (∀ s ∈ skips, ∃ body, api (dataReq locale filters query s) = .ok body ∧
        cardsOf body = .ok (pg s)) →
      (∀ s ∈ skips, indexSafe (pg s)) →
      (sweepLoop locale filters query api skips acc cache).1 =
          skips.map (dataReq locale filters query) ∧
      (sweepLoop locale filters query api skips acc cache).2.1 =
          acc ++ skips.flatMap pg ∧
      (sweepLoop locale filters query api skips acc cache).2.2.2 = none
  | [], acc, cache, _, _ => by simp [sweepLoop]
  | skip :: rest, acc, cache, hp, hs => by
      obtain ⟨body, hb, hc⟩ := hp skip (List.mem_cons_self skip rest)
      have herr : (_index_cards locale (pg skip) cache).2 = none :=
        index_cards_safe locale (pg skip) cache (hs skip (List.mem_cons_self skip rest))
      have ih := sweepLoop_ok locale filters query api pg rest (acc ++ pg skip)
        (_index_cards locale (pg skip) cache).1
        (fun s hsk => hp s (List.mem_cons_of_mem skip hsk))
        (fun s hsk => hs s (List.mem_cons_of_mem skip hsk))
      rcases hx : _index_cards locale (pg skip) cache with ⟨c2, e2⟩
      rw [hx] at herr ih
      subst herr
      rcases hy : sweepLoop locale filters query api rest (acc ++ pg skip) c2
        with ⟨r1, r2, r3, r4⟩
      rw [hy] at ih
      simp only [sweepLoop, hb, hc, hx, hy]
      refine ⟨?_, ?_, ?_⟩
      · simp only [List.map_cons]
        exact congrArg (List.cons (dataReq locale filters query skip)) ih.1
      · simpa [List.append_assoc] using ih.2.1
      · exact ih.2.2

theorem mem_pageSkips (total : Int) (mp : Nat) (s : Nat) :
    s ∈ pageSkips total mp ↔
      ∃ i : Nat, s = PAGE_SIZE * i ∧ (s : Int) < min total ((mp : Int) * (PAGE_SIZE : Int)) := by
  simp only [pageSkips, PAGE_SIZE]
  by_cases h : min total ((mp : Int) * ((100 : Nat) : Int)) ≤ 0
  · rw [if_pos h]
    simp only [List.not_mem_nil, false_iff, not_exists, not_and]
    intro i hi
    omega
  · rw [if_neg h]
    simp only [List.mem_map, List.mem_range]
    constructor
    · rintro ⟨i, hi, rfl⟩
      exact ⟨i, by omega, by omega⟩
    · rintro ⟨i, rfl, hlt⟩
      exact ⟨i, by omega, by omega⟩

/-! ## Claim C1: pagination driver -/

/-- Claim C1: with a probe declaring total `total` and page cap
`max_pages`, and every corresponding data page fetch succeeding with
indexable cards, `fetch_all_cards` issues — after the single zero-size
probe — exactly the data page requests at offsets `0, 100, 200, ...`
strictly below `min(total, max_pages * 100)` (so 2 data requests for
total 150 cap 20, 2 for total 500 cap 2, none for total 0), and returns
the concatenation of the fetched pages together with the unchanged
probe metadata. -/
theorem fetch_all_cards_pagination (locale filters query : String) (max_pages : Nat)
    (api : Api) (cache : Cache) (meta : JVal) (total : Int) (pg : Nat → List JVal)
    (hprobe : api (probeReq locale filters query) = .ok meta)
    (htotal : totalCountOf meta = .ok total)
    (hpages : ∀ s ∈ pageSkips total max_pages,
        ∃ body, api (dataReq locale filters query s) = .ok body ∧
          cardsOf body = .ok (pg s))
    (hsafe : ∀ s ∈ pageSkips total max_pages, indexSafe (pg s)) :
    (fetch_all_cards locale filters query max_pages api cache).requests =
        probeReq locale filters query ::
          (pageSkips total max_pages).map (dataReq locale filters query) ∧
    (fetch_all_cards locale filters query max_pages api cache).result =
        .ok ((pageSkips total max_pages).flatMap pg, meta) ∧
    (∀ s : Nat, s ∈ pageSkips total max_pages ↔
        ∃ i : Nat, s = PAGE_SIZE * i ∧
          (s : Int) < min total ((max_pages : Int) * (PAGE_SIZE : Int))) := by
  have main : (fetch_all_cards locale filters query max_pages api cache).requests =
        probeReq locale filters query ::
          (pageSkips total max_pages).map (dataReq locale filters query) ∧
      (fetch_all_cards locale filters query max_pages api cache).result =
        .ok ((pageSkips total max_pages).flatMap pg, meta) := by
    simp only [fetch_all_cards, hprobe, htotal]
    by_cases h0 : total = 0
    · subst h0
      have hskips : pageSkips 0 max_pages = [] := by
        simp only [pageSkips]
        rw [if_pos (by omega)]
      rw [if_pos rfl, hskips]
      exact ⟨rfl, rfl⟩
    · rw [if_neg h0]
      have hs := sweepLoop_ok locale filters query api pg
        (pageSkips total max_pages) [] cache hpages hsafe
      rcases hx : sweepLoop locale filters query api
          (pageSkips total max_pages) [] cache with ⟨r1, r2, r3, r4⟩
      rw [hx] at hs
      obtain ⟨h1, h2, h4⟩ := hs
      simp only at h1 h2 h4
      subst h4
      simp [hx, h1, h2]
  exact ⟨main.1, main.2, mem_pageSkips total max_pages⟩

/-- Transport oracle for the C1 witness: total 150, a full page of 100
at offset 0 and a page of 50 at offset 100. -/
def api150 : Api := fun r =>
  if r.top = 0 then .ok (.mkObj [("totalCount", .num 150)])
  else if r.skip = 0 then
    .ok (.mkObj [("cards", .mkArr (List.replicate 100 (.mkObj [])))])
  else .ok (.mkObj [("cards", .mkArr (List.replicate 50 (.mkObj [])))])

/-- Transport oracle for the C1 witness: total 500, empty pages. -/
def api500 : Api := fun r =>
  if r.top = 0 then .ok (.mkObj [("totalCount", .num 500)])
  else .ok (.mkObj [("cards", .mkArr [])])

/-- The page contents of `api150`. -/
def pg150 : Nat → List JVal := fun s =>
  if s = 0 then List.replicate 100 (JVal.mkObj []) else List.replicate 50 (JVal.mkObj [])

/-- Witness for C1: total 150 (cap 20) yields the probe plus exactly 2
data requests, at offsets 0 and 100, accumulating 150 records; total
500 with cap 2 also yields exactly 2 data requests. -/
theorem fetch_all_cards_pagination_witness :
    (fetch_all_cards "de-de" "" "" 20 api150 []).requests =
      [probeReq "de-de" "" "", dataReq "de-de" "" "" 0, dataReq "de-de" "" "" 100] ∧
    (fetch_all_cards "de-de" "" "" 20 api150 []).result =
      .ok (List.replicate 100 (JVal.mkObj []) ++ List.replicate 50 (JVal.mkObj []),
        JVal.mkObj [("totalCount", .num 150)]) ∧
    (List.replicate 100 (JVal.mkObj []) ++ List.replicate 50 (JVal.mkObj [])).length = 150 ∧
    (fetch_all_cards "de-de" "" "" 2 api500 []).requests =
      [probeReq "de-de" "" "", dataReq "de-de" "" "" 0, dataReq "de-de" "" "" 100] := by
  have hsk : pageSkips 150 20 = [0, 100] := by decide
  have hsk2 : pageSkips 500 2 = [0, 100] := by decide
  have h150 := fetch_all_cards_pagination "de-de" "" "" 20 api150 []
    (JVal.mkObj [("totalCount", .num 150)]) 150 pg150 rfl rfl
    (by
      intro s hs
      rw [hsk] at hs
      simp only [List.mem_cons, List.not_mem_nil, or_false] at hs
      rcases hs with rfl | rfl
      · exact ⟨_, rfl, rfl⟩
      · exact ⟨_, rfl, rfl⟩)
    (by
      intro s hs card hcard
      rw [hsk] at hs
      simp only [List.mem_cons, List.not_mem_nil, or_false] at hs
      have hcc : card = JVal.mkObj [] := by
        rcases hs with rfl | rfl
        · simpa [pg150] using hcard
        · simpa [pg150] using hcard
      subst hcc
      exact ⟨.str "", rfl⟩)
  have h500 := fetch_all_cards_pagination "de-de" "" "" 2 api500 []
    (JVal.mkObj [("totalCount", .num 500)]) 500 (fun _ => []) rfl rfl
    (by
      intro s hs
      exact ⟨JVal.mkObj [("cards", .mkArr [])], rfl, rfl⟩)
    (by intro s hs card hcard; cases hcard)
  refine ⟨?_, ?_, by simp, ?_⟩
  · rw [h150.1, hsk]; rfl
  · rw [h150.2.1, hsk]; rfl
  · rw [h500.1, hsk2]; rfl

/-! ## Claim C10: zero, negative or absent total -/

/-- Claim C10: when the probe's `totalCount` is absent (read as 0),
zero, or negative, `fetch_all_cards` issues no data page request,
leaves the cache unchanged, and returns the empty collection together
with the probe metadata. -/
theorem fetch_all_cards_nonpositive (locale filters query : String) (mp : Nat)
    (api : Api) (cache : Cache) (meta : JVal) (total : Int)
    (hprobe : api (probeReq locale filters query) = .ok meta)
    (htotal : totalCountOf meta = .ok total)
    (hle : total ≤ 0) :
    fetch_all_cards locale filters query mp api cache =
      ⟨[probeReq locale filters query], cache, .ok ([], meta)⟩ := by
  simp only [fetch_all_cards, hprobe, htotal]
  by_cases h0 : total = 0
  · rw [if_pos h0]
  · rw [if_neg h0]
    have hskips : pageSkips total mp = [] := by
      simp only [pageSkips]
      rw [if_pos (by omega)]
    rw [hskips]
    rfl

/-- Witness for C10: a probe body without `totalCount` and one with
`totalCount = -5` both produce the empty collection, no data request
and an unchanged (empty) cache. -/
theorem fetch_all_cards_nonpositive_witness :
    fetch_all_cards "de-de" "" "" 20 (fun _ => .ok (JVal.mkObj [("cards", .arrNil)])) [] =
      ⟨[probeReq "de-de" "" ""], [], .ok ([], JVal.mkObj [("cards", .arrNil)])⟩ ∧
    fetch_all_cards "de-de" "" "" 20
        (fun _ => .ok (JVal.mkObj [("totalCount", .num (-5))])) [] =
      ⟨[probeReq "de-de" "" ""], [], .ok ([], JVal.mkObj [("totalCount", .num (-5))])⟩ := by
  constructor
  · exact fetch_all_cards_nonpositive "de-de" "" "" 20 _ []
      (JVal.mkObj [("cards", .arrNil)]) 0 rfl rfl (by omega)
  · exact fetch_all_cards_nonpositive "de-de" "" "" 20 _ []
      (JVal.mkObj [("totalCount", .num (-5))]) (-5) rfl rfl (by omega)

/-! ## Claim C5: `get_event_details` control flow -/

/-- Counterexample for C5: a reachable cache state (built by
`_index_cards` itself from a card the API could send, whose `location`
is a non-dict) on which a cache hit raises out of the projection
instead of returning the projected record plus raw content. -/
theorem get_event_details_hit_raises_counterexample :
    (_index_cards "de-de"
        [JVal.mkObj [("content",
          JVal.mkObj [("id", .str "evt-1"), ("location", .str "Berlin")])]] []).2 = none ∧
    (get_event_details "evt-1" "de-de" (fun _ => .ok .objNil)
        (_index_cards "de-de"
          [JVal.mkObj [("content",
            JVal.mkObj [("id", .str "evt-1"), ("location", .str "Berlin")])]] []).1).sweepCalls
      = [] ∧
    (get_event_details "evt-1" "de-de" (fun _ => .ok .objNil)
        (_index_cards "de-de"
          [JVal.mkObj [("content",
            JVal.mkObj [("id", .str "evt-1"), ("location", .str "Berlin")])]] []).1).outcome
      = .error "AttributeError" := ⟨rfl, rfl, rfl⟩

/-- Claim C5 (amended): on a cache hit `get_event_details` issues no
fetch, leaves the cache unchanged and returns the projection outcome of
the cached record with its raw content (succeeding whenever the
projection does; a record whose projection raises propagates that
failure, per the counterexample).  On a miss it issues exactly one full
sweep — page cap 50, empty filter, no query — keeps that sweep's cache,
propagates a sweep failure, and otherwise re-checks the cache,
returning the structured not-found document when the identifier is
still absent and the projection outcome of the now-cached record
otherwise. -/
theorem get_event_details_spec (event_id locale : String) (api : Api) (cache : Cache) :
    (∀ card, cacheHit cache (locale, .str event_id) = some card →
        get_event_details event_id locale api cache = ⟨[], cache, detailsOf card⟩) ∧
    (cacheHit cache (locale, .str event_id) = none →
        (get_event_details event_id locale api cache).sweepCalls =
          [(locale, "", "", 50)] ∧
        (get_event_details event_id locale api cache).cache =
          (fetch_all_cards locale "" "" 50 api cache).cache ∧
        (∀ e, (fetch_all_cards locale "" "" 50 api cache).result = .error e →
            (get_event_details event_id locale api cache).outcome = .error e) ∧
        (∀ res, (fetch_all_cards locale "" "" 50 api cache).result = .ok res →
            (cacheHit (fetch_all_cards locale "" "" 50 api cache).cache
                (locale, .str event_id) = none →
              (get_event_details event_id locale api cache).outcome =
                .ok (.notFound event_id)) ∧
            (∀ card, cacheHit (fetch_all_cards locale "" "" 50 api cache).cache
                (locale, .str event_id) = some card →
              (get_event_details event_id locale api cache).outcome =
                detailsOf card))) := by
  constructor
  · intro card hcard
    simp [get_event_details, hcard]
  · intro hmiss
    rcases hres : (fetch_all_cards locale "" "" 50 api cache).result with e | res
    · refine ⟨?_, ?_, ?_, ?_⟩ <;> simp [get_event_details, hmiss, hres]
    · rcases hhit : cacheHit (fetch_all_cards locale "" "" 50 api cache).cache
          (locale, .str event_id) with _ | card2
      · refine ⟨?_, ?_, ?_, ?_⟩ <;> simp [get_event_details, hmiss, hres, hhit]
      · refine ⟨?_, ?_, ?_, ?_⟩ <;> simp [get_event_details, hmiss, hres, hhit]

/-- Witness for C5 (amended): a hit returns the projected record plus
raw content with no sweep; a miss whose sweep finds nothing returns the
structured not-found document after exactly one `("", "", 50)` sweep. -/
theorem get_event_details_spec_witness :
    get_event_details "e1" "de-de" (fun _ => .ok .objNil)
        [(("de-de", .str "e1"), JVal.mkObj [("content", JVal.mkObj [("id", .str "e1")])])] =
      ⟨[], [(("de-de", .str "e1"), JVal.mkObj [("content", JVal.mkObj [("id", .str "e1")])])],
        detailsOf (JVal.mkObj [("content", JVal.mkObj [("id", .str "e1")])])⟩ ∧
    detailsOf (JVal.mkObj [("content", JVal.mkObj [("id", .str "e1")])]) =
      .ok (.found ⟨.str "e1", .str "", .str "", .str "", .str "", .str "", .str "",
        .str "", .str "", .str "", .str "", .str "", .arrNil⟩
        (JVal.mkObj [("id", .str "e1")])) ∧
    (get_event_details "nope" "de-de" (fun _ => .ok (JVal.mkObj [])) []).outcome =
      .ok (.notFound "nope") ∧
    (get_event_details "nope" "de-de" (fun _ => .ok (JVal.mkObj [])) []).sweepCalls =
      [("de-de", "", "", 50)] := by
  refine ⟨?_, rfl, ?_, ?_⟩
  · exact (get_event_details_spec "e1" "de-de" (fun _ => .ok .objNil)
      [(("de-de", .str "e1"),
        JVal.mkObj [("content", JVal.mkObj [("id", .str "e1")])])]).1
      (JVal.mkObj [("content", JVal.mkObj [("id", .str "e1")])]) rfl
  · exact (((get_event_details_spec "nope" "de-de" (fun _ => .ok (JVal.mkObj [])) []).2
      rfl).2.2.2 ([], JVal.mkObj []) rfl).1 rfl
  · exact ((get_event_details_spec "nope" "de-de" (fun _ => .ok (JVal.mkObj [])) []).2
      rfl).1

/-! ## Claim C8: monotone cache growth -/

theorem cacheFind_map_replace_ne (c : Cache) (k k2 : String × JVal) (v : JVal)
    (h : ¬ k = k2) :
    cacheFind (c.map (fun p => if p.1 = k2 then (k2, v) else p)) k = cacheFind c k := by
  induction c with
  | nil => rfl
  | cons p rest ih =>
      rcases p with ⟨k1, v1⟩
      simp only [List.map_cons]
      have hne : ¬ k2 = k := fun hh => h hh.symm
      by_cases h1 : k1 = k2
      · subst h1
        rw [if_pos rfl, cacheFind_cons, if_neg hne, cacheFind_cons, if_neg hne, ih]
      · rw [if_neg h1, cacheFind_cons, cacheFind_cons]
        by_cases hk1 : k1 = k
        · rw [if_pos hk1, if_pos hk1]
        · rw [if_neg hk1, if_neg hk1, ih]

theorem cacheFind_append_left (c l : Cache) (k : String × JVal) (x : JVal)
    (h : cacheFind c k = some x) : cacheFind (c ++ l) k = some x := by
  induction c with
  | nil => simp [cacheFind] at h
  | cons p rest ih =>
      rcases p with ⟨k1, v1⟩
      rw [List.cons_append, cacheFind_cons]
      rw [cacheFind_cons] at h
      by_cases hk : k1 = k
      · rwa [if_pos hk] at h ⊢
      · rw [if_neg hk] at h ⊢; exact ih h

theorem cacheInsert_mono (c : Cache) (k k2 : String × JVal) (v : JVal)
    (h : (cacheFind c k).isSome = true) :
    (cacheFind (cacheInsert c k2 v) k).isSome = true := by
  by_cases hk : k = k2
  · subst hk; rw [cacheFind_cacheInsert]; rfl
  · unfold cacheInsert
    by_cases hs : (cacheFind c k2).isSome
    · rw [if_pos hs, cacheFind_map_replace_ne c k k2 v hk]; exact h
    · rw [if_neg hs]
      cases hc : cacheFind c k with
      | none => rw [hc] at h; simp at h
      | some x => rw [cacheFind_append_left c _ k x hc]; rfl

theorem index_cards_mono (locale : String) :
    ∀ (cards : List JVal) (cache : Cache) (k : String × JVal),
      (cacheFind cache k).isSome = true →
      (cacheFind (_index_cards locale cards cache).1 k).isSome = true
  | [], _, _, h => h
  | card :: t, cache, k, h => by
      cases hx : extractId card with
      | error e => simpa [_index_cards, hx] using h
      | ok eid =>
          simp only [_index_cards, hx]
          apply index_cards_mono locale t
          by_cases ht : eid.truthy
          · rw [if_pos ht]; exact cacheInsert_mono cache k (locale, eid) card h
          · rwa [if_neg ht]

theorem sweepLoop_mono (locale filters query : String) (api : Api) :
    ∀ (skips : List Nat) (acc : List JVal) (cache : Cache) (k : String × JVal),
      (cacheFind cache k).isSome = true →
      (cacheFind (sweepLoop locale filters query api skips acc cache).2.2.1 k).isSome = true
  | [], _, _, _, h => h
  | skip :: rest, acc, cache, k, h => by
      simp only [sweepLoop]
      cases ha : api (dataReq locale filters query skip) with
      | error e => simp only [ha]; exact h
      | ok data =>
          simp only [ha]
          cases hcds : cardsOf data with
          | error e => simp only [hcds]; exact h
          | ok cards =>
              simp only [hcds]
              rcases hix : _index_cards locale cards cache with ⟨c2, err⟩
              simp only [hix]
              have hc2 : (cacheFind c2 k).isSome = true := by
                have hm := index_cards_mono locale cards cache k h
                rw [hix] at hm; exact hm
              cases err with
              | some e => exact hc2
              | none =>
                  exact sweepLoop_mono locale filters query api rest
                    (acc ++ cards) c2 k hc2

theorem fetch_all_cards_mono (locale filters query : String) (mp : Nat) (api : Api)
    (cache : Cache) (k : String × JVal)
    (h : (cacheFind cache k).isSome = true) :
    (cacheFind (fetch_all_cards locale filters query mp api cache).cache k).isSome = true := by
  simp only [fetch_all_cards]
  cases hp : api (probeReq locale filters query) with
  | error e => simp only [hp]; exact h
  | ok meta =>
      simp only [hp]
      cases ht : totalCountOf meta with
      | error e => simp only [ht]; exact h
      | ok total =>
          simp only [ht]
          by_cases h0 : total = 0
          · rw [if_pos h0]; exact h
          · rw [if_neg h0]
            exact sweepLoop_mono locale filters query api (pageSkips total mp)
              [] cache k h

theorem get_event_details_mono (event_id locale : String) (api : Api) (cache : Cache)
    (k : String × JVal) (h : (cacheFind cache k).isSome = true) :
    (cacheFind (get_event_details event_id locale api cache).cache k).isSome = true := by
  simp only [get_event_details]
  cases hhit : cacheHit cache (locale, .str event_id) with
  | some card => exact h
  | none =>
      have hm := fetch_all_cards_mono locale "" "" 50 api cache k h
      cases hres : (fetch_all_cards locale "" "" 50 api cache).result with
      | error e => exact hm
      | ok res =>
          cases hhit2 : cacheHit (fetch_all_cards locale "" "" 50 api cache).cache
              (locale, .str event_id) with
          | some card => exact hm
          | none => exact hm

theorem applyOp_mono (cache : Cache) (op : ServerOp) (k : String × JVal)
    (h : (cacheFind cache k).isSome = true) :
    (cacheFind (applyOp cache op) k).isSome = true := by
  cases op with
  | searchOp f q l api => exact fetch_all_cards_mono l f q 20 api cache k h
  | detailsOp e l api => exact get_event_details_mono e l api cache k h
  | listFiltersOp _ _ => exact h
  | statsOp _ _ _ => exact h
  | indexOp l cards => exact index_cards_mono l cards cache k h
  | sweepOp l f q m api => exact fetch_all_cards_mono l f q m api cache k h

/-- Claim C8: the cache grows monotonically — starting from any state,
no sequence of tool or internal operations (search, get-by-id,
list-filter-categories, get-stats, indexing, pagination sweeps) ever
removes a key: every key present before the sequence is still present
after it (its value possibly overwritten). -/
theorem cache_monotone (ops : List ServerOp) (cache : Cache) (k : String × JVal)
    (h : (cacheFind cache k).isSome = true) :
    (cacheFind (ops.foldl applyOp cache) k).isSome = true := by
  induction ops generalizing cache with
  | nil => exact h
  | cons op rest ih =>
      rw [List.foldl_cons]
      exact ih (applyOp cache op) (applyOp_mono cache op k h)

/-- Witness for C8: a key present survives an indexing of another
record, a full sweep that finds nothing, and a stats call. -/
theorem cache_monotone_witness :
    (cacheFind
      ([ServerOp.indexOp "de-de"
          [JVal.mkObj [("content", JVal.mkObj [("id", .str "other")])]],
        ServerOp.sweepOp "de-de" "" "" 20 (fun _ => .ok (JVal.mkObj [])),
        ServerOp.statsOp "" "de-de" (fun _ => .ok (JVal.mkObj []))].foldl applyOp
        [(("de-de", .str "e1"), JVal.mkObj [("content", JVal.mkObj [("id", .str "e1")])])])
      ("de-de", .str "e1")).isSome = true := by
  exact cache_monotone
    [ServerOp.indexOp "de-de"
        [JVal.mkObj [("content", JVal.mkObj [("id", .str "other")])]],
      ServerOp.sweepOp "de-de" "" "" 20 (fun _ => .ok (JVal.mkObj [])),
      ServerOp.statsOp "" "de-de" (fun _ => .ok (JVal.mkObj []))]
    [(("de-de", .str "e1"), JVal.mkObj [("content", JVal.mkObj [("id", .str "e1")])])]
    ("de-de", .str "e1") rfl

/-! ## Claim C9: cache key/value consistency -/

theorem bind_ok_cases {α β : Type} (x : Except String α) (f : α → Except String β)
    (b : β) (h : x >>= f = .ok b) : ∃ a, x = .ok a ∧ f a = .ok b := by
  cases x with
  | error e => rw [ebind_err] at h; cases h
  | ok a => rw [ebind_ok] at h; exact ⟨a, rfl, h⟩

theorem parse_card_id (card : JVal) (p : Parsed) (e : JVal)
    (hp : parse_card card = .ok p) (he : extractId card = .ok e) : p.id = e := by
  unfold parse_card at hp
  unfold extractId at he
  obtain ⟨content, hcd, hp⟩ := bind_ok_cases _ _ _ hp
  obtain ⟨c2, hcd2, he⟩ := bind_ok_cases _ _ _ he
  rw [hcd] at hcd2
  cases hcd2
  obtain ⟨lv, h1, hp⟩ := bind_ok_cases _ _ _ hp
  obtain ⟨dv, h2, hp⟩ := bind_ok_cases _ _ _ hp
  obtain ⟨av, h3, hp⟩ := bind_ok_cases _ _ _ hp
  obtain ⟨idv, hid, hp⟩ := bind_ok_cases _ _ _ hp
  rw [he] at hid
  cases hid
  obtain ⟨v1, hv1, hp⟩ := bind_ok_cases _ _ _ hp
  obtain ⟨v2, hv2, hp⟩ := bind_ok_cases _ _ _ hp
  obtain ⟨v3, hv3, hp⟩ := bind_ok_cases _ _ _ hp
  obtain ⟨v4, hv4, hp⟩ := bind_ok_cases _ _ _ hp
  obtain ⟨v5, hv5, hp⟩ := bind_ok_cases _ _ _ hp
  obtain ⟨v6, hv6, hp⟩ := bind_ok_cases _ _ _ hp
  obtain ⟨v7, hv7, hp⟩ := bind_ok_cases _ _ _ hp
  obtain ⟨v8, hv8, hp⟩ := bind_ok_cases _ _ _ hp
  obtain ⟨v9, hv9, hp⟩ := bind_ok_cases _ _ _ hp
  obtain ⟨v10, hv10, hp⟩ := bind_ok_cases _ _ _ hp
  obtain ⟨v11, hv11, hp⟩ := bind_ok_cases _ _ _ hp
  obtain ⟨v12, hv12, hp⟩ := bind_ok_cases _ _ _ hp
  cases hp
  rfl

theorem cacheHit_find (c : Cache) (k : String × JVal) (card : JVal)
    (h : cacheHit c k = some card) : cacheFind c k = some card := by
  cases hf : cacheFind c k with
  | none => simp [cacheHit, hf] at h
  | some x =>
      simp only [cacheHit, hf] at h
      by_cases ht : x.truthy
      · rw [if_pos ht] at h; exact h
      · rw [if_neg ht] at h; cases h

theorem cacheFind_mem (c : Cache) (k : String × JVal) (v : JVal)
    (h : cacheFind c k = some v) : (k, v) ∈ c := by
  induction c with
  | nil => cases h
  | cons p rest ih =>
      rcases p with ⟨k1, v1⟩
      rw [cacheFind_cons] at h
      by_cases hk : k1 = k
      · rw [if_pos hk] at h
        cases h
        subst hk
        exact List.mem_cons_self _ _
      · rw [if_neg hk] at h
        exact List.mem_cons_of_mem _ (ih h)

/-- The invariant of `_seen_cards`: every stored record's extracted
identifier equals (and is as truthy as) the identifier component of its
key. -/
def CacheOK (c : Cache) : Prop :=
  ∀ p ∈ c, extractId p.2 = .ok p.1.2 ∧ p.1.2.truthy = true

theorem cacheOK_nil : CacheOK ([] : Cache) := by
  intro p hp
  simp at hp

theorem cacheOK_insert (c : Cache) (locale : String) (eid card : JVal)
    (hc : CacheOK c) (hx : extractId card = .ok eid) (ht : eid.truthy = true) :
    CacheOK (cacheInsert c (locale, eid) card) := by
  intro p hp
  unfold cacheInsert at hp
  by_cases hs : (cacheFind c (locale, eid)).isSome
  · rw [if_pos hs] at hp
    obtain ⟨q, hq, hpq⟩ := List.mem_map.mp hp
    by_cases h1 : q.1 = (locale, eid)
    · rw [if_pos h1] at hpq
      subst hpq
      exact ⟨hx, ht⟩
    · rw [if_neg h1] at hpq
      subst hpq
      exact hc q hq
  · rw [if_neg hs] at hp
    rcases List.mem_append.mp hp with hp1 | hp2
    · exact hc p hp1
    · simp only [List.mem_singleton] at hp2
      subst hp2
      exact ⟨hx, ht⟩

theorem cacheOK_index (locale : String) :
    ∀ (cards : List JVal) (c : Cache), CacheOK c →
      CacheOK (_index_cards locale cards c).1
  | [], _, h => h
  | card :: t, c, h => by
      cases hx : extractId card with
      | error e => simpa [_index_cards, hx] using h
      | ok eid =>
          simp only [_index_cards, hx]
          apply cacheOK_index locale t
          by_cases ht : eid.truthy
          · rw [if_pos ht]; exact cacheOK_insert c locale eid card h hx ht
          · rwa [if_neg ht]

theorem cacheOK_sweepLoop (locale filters query : String) (api : Api) :
    ∀ (skips : List Nat) (acc : List JVal) (cache : Cache), CacheOK cache →
      CacheOK (sweepLoop locale filters query api skips acc cache).2.2.1
  | [], _, _, h => h
  | skip :: rest, acc, cache, h => by
      simp only [sweepLoop]
      cases ha : api (dataReq locale filters query skip) with
      | error e => simp only [ha]; exact h
      | ok data =>
          simp only [ha]
          cases hcds : cardsOf data with
          | error e => simp only [hcds]; exact h
          | ok cards =>
              simp only [hcds]
              rcases hix : _index_cards locale cards cache with ⟨c2, err⟩
              simp only [hix]
              have hc2 : CacheOK c2 := by
                have hm := cacheOK_index locale cards cache h
                rw [hix] at hm; exact hm
              cases err with
              | some e => exact hc2
              | none =>
                  exact cacheOK_sweepLoop locale filters query api rest
                    (acc ++ cards) c2 hc2

theorem cacheOK_fetch_all (locale filters query : String) (mp : Nat) (api : Api)
    (cache : Cache) (h : CacheOK cache) :
    CacheOK (fetch_all_cards locale filters query mp api cache).cache := by
  simp only [fetch_all_cards]
  cases hp : api (probeReq locale filters query) with
  | error e => simp only [hp]; exact h
  | ok meta =>
      simp only [hp]
      cases ht : totalCountOf meta with
      | error e => simp only [ht]; exact h
      | ok total =>
          simp only [ht]
          by_cases h0 : total = 0
          · rw [if_pos h0]; exact h
          · rw [if_neg h0]
            exact cacheOK_sweepLoop locale filters query api (pageSkips total mp)
              [] cache h

theorem cacheOK_details (event_id locale : String) (api : Api) (cache : Cache)
    (h : CacheOK cache) :
    CacheOK (get_event_details event_id locale api cache).cache := by
  simp only [get_event_details]
  cases hhit : cacheHit cache (locale, .str event_id) with
  | some card => exact h
  | none =>
      have hm := cacheOK_fetch_all locale "" "" 50 api cache h
      cases hres : (fetch_all_cards locale "" "" 50 api cache).result with
      | error e => exact hm
      | ok res =>
          cases hhit2 : cacheHit (fetch_all_cards locale "" "" 50 api cache).cache
              (locale, .str event_id) with
          | some card => exact hm
          | none => exact hm

theorem cacheOK_applyOp (cache : Cache) (op : ServerOp) (h : CacheOK cache) :
    CacheOK (applyOp cache op) := by
  cases op with
  | searchOp f q l api => exact cacheOK_fetch_all l f q 20 api cache h
  | detailsOp e l api => exact cacheOK_details e l api cache h
  | listFiltersOp _ _ => exact h
  | statsOp _ _ _ => exact h
  | indexOp l cards => exact cacheOK_index l cards cache h
  | sweepOp l f q m api => exact cacheOK_fetch_all l f q m api cache h

/-- Claim C9: the empty cache satisfies the key/value invariant — every
stored record's content identifier equals the identifier of its key and
is truthy — every operation preserves it, and consequently whenever
`get_event_details` returns a found result from an invariant-satisfying
cache, the projected record's `id` field equals the requested id. -/
theorem cache_key_consistency (cache : Cache) (h : CacheOK cache) :
    CacheOK ([] : Cache) ∧
    (∀ op, CacheOK (applyOp cache op)) ∧
    (∀ (event_id locale : String) (api : Api) (p : Parsed) (raw : JVal),
        (get_event_details event_id locale api cache).outcome = .ok (.found p raw) →
        p.id = .str event_id) := by
  refine ⟨cacheOK_nil, fun op => cacheOK_applyOp cache op h, ?_⟩
  intro event_id locale api p raw hout
  have main : ∀ (c : Cache), CacheOK c → ∀ card,
      cacheHit c (locale, .str event_id) = some card →
      detailsOf card = .ok (.found p raw) → p.id = .str event_id := by
    intro c hc card hhit hdet
    have hfind := cacheHit_find c _ card hhit
    have hmem := cacheFind_mem c _ card hfind
    have hok := hc _ hmem
    unfold detailsOf at hdet
    obtain ⟨q, hq, hdet⟩ := bind_ok_cases _ _ _ hdet
    obtain ⟨r, hr, hdet⟩ := bind_ok_cases _ _ _ hdet
    simp only [pure, Except.pure, Except.ok.injEq, DetailsOut.found.injEq] at hdet
    obtain ⟨rfl, rfl⟩ := hdet
    exact parse_card_id card _ _ hq hok.1
  simp only [get_event_details] at hout
  cases hhit : cacheHit cache (locale, .str event_id) with
  | some card =>
      rw [hhit] at hout
      exact main cache h card hhit hout
  | none =>
      rw [hhit] at hout
      cases hres : (fetch_all_cards locale "" "" 50 api cache).result with
      | error e =>
          rw [hres] at hout
          cases hout
      | ok res =>
          rw [hres] at hout
          cases hhit2 : cacheHit (fetch_all_cards locale "" "" 50 api cache).cache
              (locale, .str event_id) with
          | none =>
              rw [hhit2] at hout
              simp at hout
          | some card2 =>
              rw [hhit2] at hout
              exact main _ (cacheOK_fetch_all locale "" "" 50 api cache h) card2
                hhit2 hout

/-- Witness for C9: a found result from a singleton invariant cache
carries the requested id in its `id` field. -/
theorem cache_key_consistency_witness :
    (get_event_details "e1" "de-de" (fun _ => .ok .objNil)
        [(("de-de", .str "e1"), JVal.mkObj [("content", JVal.mkObj [("id", .str "e1")])])]).outcome
      = .ok (.found ⟨.str "e1", .str "", .str "", .str "", .str "", .str "", .str "",
          .str "", .str "", .str "", .str "", .str "", .arrNil⟩
          (JVal.mkObj [("id", .str "e1")])) ∧
    Parsed.id ⟨.str "e1", .str "", .str "", .str "", .str "", .str "", .str "",
        .str "", .str "", .str "", .str "", .str "", .arrNil⟩ = .str "e1" := by
  refine ⟨rfl, ?_⟩
  exact (cache_key_consistency
    [(("de-de", .str "e1"), JVal.mkObj [("content", JVal.mkObj [("id", .str "e1")])])]
    (by
      intro p hp
      simp only [List.mem_singleton] at hp
      subst hp
      exact ⟨rfl, rfl⟩)).2.2 "e1" "de-de" (fun _ => .ok .objNil) _ _ rfl
